import Mathlib

/-!
Verification of the Overwinter signature-hash (sighash) computation of
`zcash_primitives/src/transaction/sighash.rs`.

Bytes are modelled as natural numbers (each value taken mod 256 where it is
produced); byte strings are `List Nat`.  The Blake2b-256 hashing primitive is
an external library collaborator of the source file and is modelled as a fixed
computable stand-in returning 32 bytes.  The incremental Blake2b accumulator
(`with_params` / `update` / `finalize`) is modelled faithfully: a state holding
the 16-byte personalization and the concatenation of all bytes fed so far,
finalized by applying the hash primitive to that concatenation.
-/

namespace Sighash

/-- Little-endian 4-byte encoding of a 32-bit value (`write_u32::<LittleEndian>`). -/
def le32 (n : Nat) : List Nat :=
  [n % 256, n / 256 % 256, n / 65536 % 256, n / 16777216 % 256]

/-- Little-endian 8-byte encoding of a 64-bit value (`write_u64::<LittleEndian>`). -/
def le64 (n : Nat) : List Nat :=
  [n % 256, n / 256 % 256, n / 65536 % 256, n / 16777216 % 256,
   n / 4294967296 % 256, n / 1099511627776 % 256,
   n / 281474976710656 % 256, n / 72057594037927936 % 256]

/-- Modelled from the spec: the external Blake2b-256 personalized hashing
primitive (empty key, empty salt, 32-byte output) provided by the `blake2_rfc`
library; out of scope for the core, so modelled as a fixed computable function
of the personalization tag and the message, returning a 32-byte digest. -/
def blake2b256 (personal data : List Nat) : List Nat :=
  let seed : Nat :=
    (personal ++ data).foldl (fun acc b => (acc * 16777619 + b + 1) % 1000000007)
      (data.length * 131 + 2166136261)
  (List.range 32).map (fun i => (seed / (i + 1) + seed * (7 * i + 3)) % 256)

/-- State of an incremental Blake2b computation: the 16-byte personalization
fixed at `with_params` time and the bytes fed so far. -/
structure Blake2bState where
  personal : List Nat
  fed : List Nat
deriving Repr, DecidableEq

/-- Corresponds to `Blake2b::with_params(32, &[], &[], personal)`. -/
def Blake2bState.with_params (personal : List Nat) : Blake2bState :=
  ⟨personal, []⟩

/-- Corresponds to `Blake2b::update`: feed more bytes. -/
def Blake2bState.update (h : Blake2bState) (d : List Nat) : Blake2bState :=
  ⟨h.personal, h.fed ++ d⟩

/-- Corresponds to `Blake2b::finalize`: the digest of everything fed, under the
state's personalization. -/
def Blake2bState.finalize (h : Blake2bState) : List Nat :=
  blake2b256 h.personal h.fed

/-- The 12 ASCII bytes of `"ZcashSigHash"` (`ZCASH_SIGHASH_PERSONALIZATION_PREFIX`). -/
def ZCASH_SIGHASH_PERSONALIZATION : List Nat :=
  [90, 99, 97, 115, 104, 83, 105, 103, 72, 97, 115, 104]

/-- The 16 ASCII bytes of `"ZcashPrevoutHash"`. -/
def ZCASH_PREVOUTS_HASH_PERSONALIZATION : List Nat :=
  [90, 99, 97, 115, 104, 80, 114, 101, 118, 111, 117, 116, 72, 97, 115, 104]

/-- The 16 ASCII bytes of `"ZcashSequencHash"`. -/
def ZCASH_SEQUENCE_HASH_PERSONALIZATION : List Nat :=
  [90, 99, 97, 115, 104, 83, 101, 113, 117, 101, 110, 99, 72, 97, 115, 104]

/-- The 16 ASCII bytes of `"ZcashOutputsHash"`. -/
def ZCASH_OUTPUTS_HASH_PERSONALIZATION : List Nat :=
  [90, 99, 97, 115, 104, 79, 117, 116, 112, 117, 116, 115, 72, 97, 115, 104]

/-- The 16 ASCII bytes of `"ZcashJSplitsHash"`. -/
def ZCASH_JOINSPLITS_HASH_PERSONALIZATION : List Nat :=
  [90, 99, 97, 115, 104, 74, 83, 112, 108, 105, 116, 115, 72, 97, 115, 104]

def SIGHASH_NONE : Nat := 2
def SIGHASH_SINGLE : Nat := 3
def SIGHASH_MASK : Nat := 0x1f
def SIGHASH_ANYONECANPAY : Nat := 0x80

/-- Modelled from the spec: the recognized version-group identifier
(`OVERWINTER_VERSION_GROUP_ID`, declared in the transaction module outside this
core) that selects the post-upgrade algorithm. -/
def OVERWINTER_VERSION_GROUP_ID : Nat := 0x03C48270

/-- Modelled from the spec: an OutPoint is a 32-byte transaction-id hash plus a
4-byte little-endian output index. -/
structure OutPoint where
  hash : List Nat
  n : Nat
deriving Repr, DecidableEq

/-- Modelled from the spec: canonical OutPoint serialization is hash then
little-endian index, 36 bytes. -/
def OutPoint.write (p : OutPoint) : List Nat :=
  p.hash ++ le32 p.n

/-- Modelled from the spec: a transparent input is a previous outpoint, a
script signature (ignored by sighash) and a sequence number. -/
structure TxIn where
  prevout : OutPoint
  script_sig : List Nat
  sequence : Nat
deriving Repr, DecidableEq

/-- Modelled from the spec: compact-size length prefix used by the canonical
length-prefixed serialization of scripts. -/
def compactSize (n : Nat) : List Nat :=
  if n < 253 then [n]
  else if n < 65536 then [253, n % 256, n / 256 % 256]
  else if n < 4294967296 then 254 :: le32 n
  else 255 :: le64 n

/-- Modelled from the spec: `Script::write` emits the script bytes preceded by
their length. -/
def writeScript (s : List Nat) : List Nat :=
  compactSize s.length ++ s

/-- Modelled from the spec: the two's-complement unsigned 64-bit value of a
signed 64-bit amount, as serialized on the wire. -/
def u64OfAmount (a : Int) : Nat :=
  (a % (18446744073709551616 : Int)).toNat

/-- Modelled from the spec: a transparent output is a signed 64-bit value and a
script. -/
structure TxOut where
  value : Int
  script_pubkey : List Nat
deriving Repr, DecidableEq

/-- Modelled from the spec: `TxOut::write` is the 8-byte little-endian amount
followed by the length-prefixed script. -/
def TxOut.write (o : TxOut) : List Nat :=
  le64 (u64OfAmount o.value) ++ writeScript o.script_pubkey

/-- Modelled from the spec: a JoinSplit description is an opaque black-box byte
producer; we carry its serialization directly. -/
structure JSDescription where
  bytes : List Nat
deriving Repr, DecidableEq

/-- Modelled from the spec: `JSDescription::write` emits the opaque encoding. -/
def JSDescription.write (j : JSDescription) : List Nat :=
  j.bytes

/-- Modelled from the spec: the transaction fields the sighash reads. -/
structure Transaction where
  overwintered : Bool
  version : Nat
  version_group_id : Nat
  vin : List TxIn
  vout : List TxOut
  lock_time : Nat
  expiry_height : Nat
  joinsplits : List JSDescription
  joinsplit_pubkey : List Nat
deriving Repr, DecidableEq

/-- Modelled from the spec: `Transaction::header()` is the 4-byte field
combining the overwintered flag (top bit) with the version. -/
def Transaction.header (tx : Transaction) : Nat :=
  (if tx.overwintered then 2147483648 else 0) + tx.version % 2147483648

/-- The Rust source aborts (`unimplemented!`, out-of-bounds slice index) rather
than returning; those aborts are modelled as explicit error values. -/
inductive SigHashError where
  | unsupportedAlgorithmVersion
  | indexOutOfBounds
deriving Repr, DecidableEq

/-- The two algorithm revisions (`enum SigHashVersion`). -/
inductive SigHashVersion where
  | Sprout
  | Overwinter
deriving Repr, DecidableEq

/-- Embedding of `SigHashVersion::from_tx`.  The `unimplemented!()` arm for an
unrecognized version-group identifier under the overwintered flag becomes the
unsupported-version error. -/
def SigHashVersion.from_tx (tx : Transaction) : Except SigHashError SigHashVersion :=
  if tx.overwintered then
    if tx.version_group_id = OVERWINTER_VERSION_GROUP_ID then
      .ok .Overwinter
    else
      .error .unsupportedAlgorithmVersion
  else
    .ok .Sprout

/-- Embedding of `prevout_hash`: Blake2b-256 of all inputs' outpoint
serializations, personalization `"ZcashPrevoutHash"`. -/
def prevout_hash (tx : Transaction) : List Nat :=
  blake2b256 ZCASH_PREVOUTS_HASH_PERSONALIZATION
    ((tx.vin.map (fun t_in => t_in.prevout.write)).flatten)

/-- Embedding of `sequence_hash`: Blake2b-256 of all inputs' little-endian
sequence numbers, personalization `"ZcashSequencHash"`. -/
def sequence_hash (tx : Transaction) : List Nat :=
  blake2b256 ZCASH_SEQUENCE_HASH_PERSONALIZATION
    ((tx.vin.map (fun t_in => le32 t_in.sequence)).flatten)

/-- Embedding of `outputs_hash`: Blake2b-256 of all outputs' serializations,
personalization `"ZcashOutputsHash"`. -/
def outputs_hash (tx : Transaction) : List Nat :=
  blake2b256 ZCASH_OUTPUTS_HASH_PERSONALIZATION
    ((tx.vout.map TxOut.write).flatten)

/-- Embedding of `joinsplits_hash`: Blake2b-256 of all joinsplit serializations
followed by the joinsplit public key, personalization `"ZcashJSplitsHash"`.
(The capacity hint keyed on `SAPLING_TX_VERSION` only pre-sizes a buffer and
does not affect the bytes.) -/
def joinsplits_hash (tx : Transaction) : List Nat :=
  blake2b256 ZCASH_JOINSPLITS_HASH_PERSONALIZATION
    ((tx.joinsplits.map JSDescription.write).flatten ++ tx.joinsplit_pubkey)

/-- The 32 zero bytes fed by `update_hash!` when a segment is excluded. -/
def zeros32 : List Nat := List.replicate 32 0

/-- Embedding of `signature_hash`, translated statement by statement from the
Rust source.  `update_u32!` becomes an update with `le32`, `update_hash!`
becomes an update with a conditional between the real sub-hash and `zeros32`,
and the two aborting paths (the Sprout arm's `unimplemented!()` and the
unguarded `tx.vin[n]` index) become errors. -/
def signature_hash (tx : Transaction) (consensus_branch_id : Nat) (hash_type : Nat)
    (transparent_input : Option (Nat × List Nat × Int)) :
    Except SigHashError (List Nat) :=
  match SigHashVersion.from_tx tx with
  | .error e => .error e
  | .ok .Sprout => .error .unsupportedAlgorithmVersion
  | .ok .Overwinter =>
    let hash_outputs : List Nat :=
      if hash_type &&& SIGHASH_MASK ≠ SIGHASH_SINGLE
          ∧ hash_type &&& SIGHASH_MASK ≠ SIGHASH_NONE then
        outputs_hash tx
      else
        match transparent_input with
        | some (n, _, _) =>
          if hash_type &&& SIGHASH_MASK = SIGHASH_SINGLE then
            match tx.vout[n]? with
            | some t_out => blake2b256 ZCASH_OUTPUTS_HASH_PERSONALIZATION t_out.write
            | none => zeros32
          else zeros32
        | none => zeros32
    let personal := ZCASH_SIGHASH_PERSONALIZATION ++ le32 consensus_branch_id
    let h := Blake2bState.with_params personal
    let h := h.update (le32 tx.header)
    let h := h.update (le32 tx.version_group_id)
    let h := h.update
      (if hash_type &&& SIGHASH_ANYONECANPAY = 0 then prevout_hash tx else zeros32)
    let h := h.update
      (if hash_type &&& SIGHASH_ANYONECANPAY = 0
          ∧ hash_type &&& SIGHASH_MASK ≠ SIGHASH_SINGLE
          ∧ hash_type &&& SIGHASH_MASK ≠ SIGHASH_NONE then
        sequence_hash tx
      else zeros32)
    let h := h.update hash_outputs
    let h := h.update (if tx.joinsplits ≠ [] then joinsplits_hash tx else zeros32)
    let h := h.update (le32 tx.lock_time)
    let h := h.update (le32 tx.expiry_height)
    let h := h.update (le32 hash_type)
    match transparent_input with
    | some (n, script_code, amount) =>
      match tx.vin[n]? with
      | some t_in =>
        .ok ((h.update (t_in.prevout.write ++ writeScript script_code
          ++ le64 (u64OfAmount amount) ++ le32 t_in.sequence)).finalize)
      | none => .error .indexOutOfBounds
    | none => .ok h.finalize


/-! ### Spec-side layout predicates

These predicates state, in the spec's terms, where a given 32-byte segment sits
inside the message whose digest the call returns: after the 4-byte LE header
and the 4-byte LE version-group id, the slots are prevouts, sequence, outputs,
joinsplits (32 bytes each), then the 4-byte LE lock time, expiry height and
hash type.  They are compared against the embedding of the source. -/

/-- Digest `d` is the sighash-personalized digest (branch `b`) of a message
whose prevouts slot holds `p` and whose sequence slot holds `s`. -/
def CommitsPrevoutSequence (tx : Transaction) (b : Nat) (p s d : List Nat) : Prop :=
  ∃ t, d = blake2b256 (ZCASH_SIGHASH_PERSONALIZATION ++ le32 b)
    (le32 tx.header ++ (le32 tx.version_group_id ++ (p ++ (s ++ t))))

/-- Digest `d` is the sighash-personalized digest (branch `b`) of a message
whose outputs slot (the third 32-byte slot) holds `o`. -/
def CommitsOutputsSlot (tx : Transaction) (b : Nat) (o d : List Nat) : Prop :=
  ∃ p s t, p.length = 32 ∧ s.length = 32 ∧
    d = blake2b256 (ZCASH_SIGHASH_PERSONALIZATION ++ le32 b)
      (le32 tx.header ++ (le32 tx.version_group_id ++ (p ++ (s ++ (o ++ t)))))

/-- Digest `d` is the sighash-personalized digest (branch `b`) of a message
whose joinsplits slot (the fourth 32-byte slot) holds `j`, followed by the
4-byte LE lock time, expiry height and hash type `ht`. -/
def CommitsJoinsplitSlot (tx : Transaction) (b ht : Nat) (j d : List Nat) : Prop :=
  ∃ p s o t, p.length = 32 ∧ s.length = 32 ∧ o.length = 32 ∧
    d = blake2b256 (ZCASH_SIGHASH_PERSONALIZATION ++ le32 b)
      (le32 tx.header ++ (le32 tx.version_group_id ++ (p ++ (s ++ (o ++ (j ++
        (le32 tx.lock_time ++ (le32 tx.expiry_height ++ (le32 ht ++ t)))))))))

/-- Erase the field the sighash must ignore: the input with its script
signature cleared. -/
def eraseScriptSig (t : TxIn) : TxIn :=
  { t with script_sig := [] }

/-! ### Concrete fixtures used by the witness theorems -/

def opW : OutPoint := ⟨List.replicate 32 17, 1⟩

def inW : TxIn := ⟨opW, [81], 7⟩

def outW : TxOut := ⟨5, [82]⟩

/-- A supported (Overwinter) transaction with one input, one output and one
joinsplit. -/
def txW : Transaction :=
  ⟨true, 3, OVERWINTER_VERSION_GROUP_ID, [inW], [outW], 11, 13, [⟨[1, 2, 3]⟩], [4, 5]⟩

/-- The same transaction as `txW` except for the input's script signature. -/
def txW2 : Transaction :=
  ⟨true, 3, OVERWINTER_VERSION_GROUP_ID, [⟨opW, [99, 100], 7⟩], [outW], 11, 13,
   [⟨[1, 2, 3]⟩], [4, 5]⟩

/-- A non-overwintered (Sprout) transaction. -/
def txSprout : Transaction := ⟨false, 1, 0, [], [], 0, 0, [], []⟩

/-- A supported transaction with no inputs and no outputs. -/
def txC5 : Transaction := ⟨true, 3, OVERWINTER_VERSION_GROUP_ID, [], [], 0, 0, [], []⟩

def inB2 : TxIn := ⟨⟨List.replicate 32 3, 2⟩, [], 9⟩

/-- A supported transaction with two inputs and one output. -/
def txB : Transaction :=
  ⟨true, 3, OVERWINTER_VERSION_GROUP_ID, [inW, inB2], [outW], 0, 0, [], []⟩

/-! ### Decomposition lemmas shared by the claim theorems -/

/-- The modelled digest is always 32 bytes. -/
theorem blake2b256_length (p d : List Nat) : (blake2b256 p d).length = 32 := by
  simp [blake2b256]

theorem zeros32_length : zeros32.length = 32 := by
  simp [zeros32]

/-- The message hashed by a supported call without a signing input, segment by
segment. -/
theorem sighash_none_eq (tx : Transaction) (b ht : Nat)
    (hov : tx.overwintered = true)
    (hvg : tx.version_group_id = OVERWINTER_VERSION_GROUP_ID) :
    signature_hash tx b ht none =
      .ok (blake2b256 (ZCASH_SIGHASH_PERSONALIZATION ++ le32 b)
        (le32 tx.header ++
         (le32 tx.version_group_id ++
          ((if ht &&& SIGHASH_ANYONECANPAY = 0 then prevout_hash tx else zeros32) ++
           ((if ht &&& SIGHASH_ANYONECANPAY = 0
                ∧ ht &&& SIGHASH_MASK ≠ SIGHASH_SINGLE
                ∧ ht &&& SIGHASH_MASK ≠ SIGHASH_NONE then
               sequence_hash tx else zeros32) ++
            ((if ht &&& SIGHASH_MASK ≠ SIGHASH_SINGLE
                 ∧ ht &&& SIGHASH_MASK ≠ SIGHASH_NONE then
                outputs_hash tx else zeros32) ++
             ((if tx.joinsplits ≠ [] then joinsplits_hash tx else zeros32) ++
              (le32 tx.lock_time ++ (le32 tx.expiry_height ++ le32 ht))))))))) := by
  simp [signature_hash, SigHashVersion.from_tx, hov, hvg,
    Blake2bState.with_params, Blake2bState.update, Blake2bState.finalize,
    List.append_assoc]

/-- The message hashed by a supported call with a signing input whose index is
a valid input index, segment by segment, suffix included. -/
theorem sighash_some_eq (tx : Transaction) (b ht n : Nat) (sc : List Nat)
    (amt : Int) (t_in : TxIn)
    (hov : tx.overwintered = true)
    (hvg : tx.version_group_id = OVERWINTER_VERSION_GROUP_ID)
    (hvin : tx.vin[n]? = some t_in) :
    signature_hash tx b ht (some (n, sc, amt)) =
      .ok (blake2b256 (ZCASH_SIGHASH_PERSONALIZATION ++ le32 b)
        (le32 tx.header ++
         (le32 tx.version_group_id ++
          ((if ht &&& SIGHASH_ANYONECANPAY = 0 then prevout_hash tx else zeros32) ++
           ((if ht &&& SIGHASH_ANYONECANPAY = 0
                ∧ ht &&& SIGHASH_MASK ≠ SIGHASH_SINGLE
                ∧ ht &&& SIGHASH_MASK ≠ SIGHASH_NONE then
               sequence_hash tx else zeros32) ++
            ((if ht &&& SIGHASH_MASK ≠ SIGHASH_SINGLE
                 ∧ ht &&& SIGHASH_MASK ≠ SIGHASH_NONE then
                outputs_hash tx
              else if ht &&& SIGHASH_MASK = SIGHASH_SINGLE then
                (match tx.vout[n]? with
                 | some t_out =>
                   blake2b256 ZCASH_OUTPUTS_HASH_PERSONALIZATION t_out.write
                 | none => zeros32)
              else zeros32) ++
             ((if tx.joinsplits ≠ [] then joinsplits_hash tx else zeros32) ++
              (le32 tx.lock_time ++
               (le32 tx.expiry_height ++
                (le32 ht ++
                 (t_in.prevout.write ++
                  (writeScript sc ++
                   (le64 (u64OfAmount amt) ++ le32 t_in.sequence))))))))))))) := by
  simp [signature_hash, SigHashVersion.from_tx, hov, hvg, hvin,
    Blake2bState.with_params, Blake2bState.update, Blake2bState.finalize,
    List.append_assoc]

/-- A supported call whose signing-input index is not a valid input index hits
the unguarded `tx.vin[n]` and aborts. -/
theorem sighash_some_invalid_eq (tx : Transaction) (b ht n : Nat) (sc : List Nat)
    (amt : Int)
    (hov : tx.overwintered = true)
    (hvg : tx.version_group_id = OVERWINTER_VERSION_GROUP_ID)
    (hvin : tx.vin[n]? = none) :
    signature_hash tx b ht (some (n, sc, amt)) =
      .error .indexOutOfBounds := by
  simp [signature_hash, SigHashVersion.from_tx, hov, hvg, hvin]

/-- A call on a transaction that is not overwintered, or whose version-group
identifier under the overwintered flag is unrecognized, fails with the
unsupported-version error before anything is hashed. -/
theorem sighash_unsupported (tx : Transaction) (b ht : Nat)
    (ti : Option (Nat × List Nat × Int))
    (h : tx.overwintered = false
      ∨ tx.version_group_id ≠ OVERWINTER_VERSION_GROUP_ID) :
    signature_hash tx b ht ti = .error .unsupportedAlgorithmVersion := by
  rcases h with h | h
  · simp [signature_hash, SigHashVersion.from_tx, h]
  · cases hov : tx.overwintered
    · simp [signature_hash, SigHashVersion.from_tx, hov]
    · simp [signature_hash, SigHashVersion.from_tx, hov, h]

/-- A conditional between a 32-byte value and the 32-byte zero placeholder is
32 bytes long. -/
theorem seg_length (c : Prop) [Decidable c] (v : List Nat) (hv : v.length = 32) :
    (if c then v else zeros32).length = 32 := by
  by_cases h : c <;> simp [h, hv, zeros32]

theorem prevout_hash_length (tx : Transaction) : (prevout_hash tx).length = 32 := by
  simp [prevout_hash, blake2b256_length]

theorem sequence_hash_length (tx : Transaction) : (sequence_hash tx).length = 32 := by
  simp [sequence_hash, blake2b256_length]

theorem outputs_hash_length (tx : Transaction) : (outputs_hash tx).length = 32 := by
  simp [outputs_hash, blake2b256_length]

theorem joinsplits_hash_length (tx : Transaction) :
    (joinsplits_hash tx).length = 32 := by
  simp [joinsplits_hash, blake2b256_length]

/-- Whatever the signing input, a returning supported call digests a message
whose prevouts and sequence slots hold exactly the values selected by the
`update_hash!` conditions. -/
theorem sighash_ok_slots (tx : Transaction) (b ht : Nat)
    (ti : Option (Nat × List Nat × Int)) (d : List Nat)
    (hov : tx.overwintered = true)
    (hvg : tx.version_group_id = OVERWINTER_VERSION_GROUP_ID)
    (hok : signature_hash tx b ht ti = .ok d) :
    CommitsPrevoutSequence tx b
      (if ht &&& SIGHASH_ANYONECANPAY = 0 then prevout_hash tx else zeros32)
      (if ht &&& SIGHASH_ANYONECANPAY = 0
          ∧ ht &&& SIGHASH_MASK ≠ SIGHASH_SINGLE
          ∧ ht &&& SIGHASH_MASK ≠ SIGHASH_NONE then
        sequence_hash tx else zeros32) d := by
  cases ti with
  | none =>
    rw [sighash_none_eq tx b ht hov hvg] at hok
    exact ⟨_, (Except.ok.inj hok).symm⟩
  | some p =>
    obtain ⟨n, sc, amt⟩ := p
    cases hvin : tx.vin[n]? with
    | none => rw [sighash_some_invalid_eq tx b ht n sc amt hov hvg hvin] at hok; cases hok
    | some t_in =>
      rw [sighash_some_eq tx b ht n sc amt t_in hov hvg hvin] at hok
      exact ⟨_, (Except.ok.inj hok).symm⟩

/-- The value the source binds to `hash_outputs` when a signing input with
index `n` is present is always 32 bytes long. -/
theorem outputs_slot_length (tx : Transaction) (ht n : Nat) :
    (if ht &&& SIGHASH_MASK ≠ SIGHASH_SINGLE ∧ ht &&& SIGHASH_MASK ≠ SIGHASH_NONE then
        outputs_hash tx
      else if ht &&& SIGHASH_MASK = SIGHASH_SINGLE then
        (match tx.vout[n]? with
         | some t_out => blake2b256 ZCASH_OUTPUTS_HASH_PERSONALIZATION t_out.write
         | none => zeros32)
      else zeros32).length = 32 := by
  by_cases h1 : ht &&& SIGHASH_MASK ≠ SIGHASH_SINGLE ∧ ht &&& SIGHASH_MASK ≠ SIGHASH_NONE
  · rw [if_pos h1]; exact outputs_hash_length tx
  · rw [if_neg h1]
    by_cases h2 : ht &&& SIGHASH_MASK = SIGHASH_SINGLE
    · rw [if_pos h2]
      cases hvout : tx.vout[n]? with
      | none => exact zeros32_length
      | some t_out => exact blake2b256_length _ _
    · rw [if_neg h2]; exact zeros32_length

/-! ### The claims -/

/-- C2: for every transaction whose overwintered flag is unset, and for every
overwintered transaction whose version-group identifier is not the recognized
`OVERWINTER_VERSION_GROUP_ID`, `signature_hash` fails with the
unsupported-version signal and returns no digest, for all values of the
consensus branch id, hash type and signing input. -/
theorem claim_C2 (tx : Transaction) (b ht : Nat) (ti : Option (Nat × List Nat × Int))
    (h : tx.overwintered = false
      ∨ (tx.overwintered = true ∧ tx.version_group_id ≠ OVERWINTER_VERSION_GROUP_ID)) :
    signature_hash tx b ht ti = .error .unsupportedAlgorithmVersion := by
  apply sighash_unsupported
  rcases h with h | ⟨_, h⟩
  · exact Or.inl h
  · exact Or.inr h

theorem claim_C2_witness :
    (txSprout.overwintered = false
      ∨ (txSprout.overwintered = true
         ∧ txSprout.version_group_id ≠ OVERWINTER_VERSION_GROUP_ID))
    ∧ signature_hash txSprout 42 1 none = .error .unsupportedAlgorithmVersion :=
  ⟨Or.inl rfl, claim_C2 txSprout 42 1 none (Or.inl rfl)⟩

/-- C8: `signature_hash` is deterministic — for a fixed argument tuple, any two
invocations that return a digest return the same bytes.  (The embedding is a
pure function of its arguments, so side-effect freedom holds by construction.) -/
theorem claim_C8 (tx : Transaction) (b ht : Nat) (ti : Option (Nat × List Nat × Int))
    (d1 d2 : List Nat)
    (h1 : signature_hash tx b ht ti = .ok d1)
    (h2 : signature_hash tx b ht ti = .ok d2) : d1 = d2 := by
  rw [h1] at h2
  exact Except.ok.inj h2

set_option maxRecDepth 40000 in
theorem claim_C8_witness :
    signature_hash txW 42 1 none =
      .ok [204, 215, 201, 180, 4, 133, 71, 210, 227, 81, 236, 233, 207, 34, 102, 191,
           160, 159, 46, 173, 66, 82, 95, 40, 8, 115, 145, 244, 87, 109, 186, 113]
    ∧ ([204, 215, 201, 180, 4, 133, 71, 210, 227, 81, 236, 233, 207, 34, 102, 191,
        160, 159, 46, 173, 66, 82, 95, 40, 8, 115, 145, 244, 87, 109, 186, 113] : List Nat) =
      [204, 215, 201, 180, 4, 133, 71, 210, 227, 81, 236, 233, 207, 34, 102, 191,
       160, 159, 46, 173, 66, 82, 95, 40, 8, 115, 145, 244, 87, 109, 186, 113] :=
  ⟨by rfl, claim_C8 txW 42 1 none _ _ (by rfl) (by rfl)⟩

/-- C10: a present signing input whose index is not a valid input index makes
the call abort at the unguarded `tx.vin[n]` lookup — no digest is returned,
unlike the tolerated out-of-range output index under SINGLE. -/
theorem claim_C10 (tx : Transaction) (b ht n : Nat) (sc : List Nat) (amt : Int)
    (h : tx.vin.length ≤ n) :
    ∃ e, signature_hash tx b ht (some (n, sc, amt)) = .error e := by
  by_cases hov : tx.overwintered = true
  · by_cases hvg : tx.version_group_id = OVERWINTER_VERSION_GROUP_ID
    · exact ⟨_, sighash_some_invalid_eq tx b ht n sc amt hov hvg (List.getElem?_eq_none h)⟩
    · exact ⟨_, sighash_unsupported tx b ht _ (Or.inr hvg)⟩
  · rw [Bool.not_eq_true] at hov
    exact ⟨_, sighash_unsupported tx b ht _ (Or.inl hov)⟩

theorem claim_C10_witness :
    txW.vin.length ≤ 5 ∧ ∃ e, signature_hash txW 42 1 (some (5, [], 0)) = .error e :=
  ⟨by decide, claim_C10 txW 42 1 5 [] 0 (by decide)⟩

/-- C1: for every overwintered transaction with the recognized version-group
identifier, `signature_hash` returns exactly the 32-byte digest, personalized
with the 16-byte tag `"ZcashSigHash"` + 4-byte LE branch id, of the
concatenation fed in this exact order: 4-byte LE header, 4-byte LE
version-group id, the 32-byte prevouts segment, the 32-byte sequence segment,
the 32-byte outputs segment, the 32-byte joinsplits segment, 4-byte LE lock
time, 4-byte LE expiry height, 4-byte LE hash type, then the optional
signing-input suffix. -/
theorem claim_C1 (tx : Transaction) (b ht : Nat)
    (hov : tx.overwintered = true)
    (hvg : tx.version_group_id = OVERWINTER_VERSION_GROUP_ID) :
    (ZCASH_SIGHASH_PERSONALIZATION ++ le32 b).length = 16
    ∧ (∀ ti d, signature_hash tx b ht ti = .ok d → d.length = 32)
    ∧ signature_hash tx b ht none =
        .ok (blake2b256 (ZCASH_SIGHASH_PERSONALIZATION ++ le32 b)
          (le32 tx.header ++
           (le32 tx.version_group_id ++
            ((if ht &&& SIGHASH_ANYONECANPAY = 0 then prevout_hash tx else zeros32) ++
             ((if ht &&& SIGHASH_ANYONECANPAY = 0
                  ∧ ht &&& SIGHASH_MASK ≠ SIGHASH_SINGLE
                  ∧ ht &&& SIGHASH_MASK ≠ SIGHASH_NONE then
                 sequence_hash tx else zeros32) ++
              ((if ht &&& SIGHASH_MASK ≠ SIGHASH_SINGLE
                   ∧ ht &&& SIGHASH_MASK ≠ SIGHASH_NONE then
                  outputs_hash tx else zeros32) ++
               ((if tx.joinsplits ≠ [] then joinsplits_hash tx else zeros32) ++
                (le32 tx.lock_time ++ (le32 tx.expiry_height ++ le32 ht)))))))))
    ∧ (∀ n sc amt t_in, tx.vin[n]? = some t_in →
        signature_hash tx b ht (some (n, sc, amt)) =
          .ok (blake2b256 (ZCASH_SIGHASH_PERSONALIZATION ++ le32 b)
            (le32 tx.header ++
             (le32 tx.version_group_id ++
              ((if ht &&& SIGHASH_ANYONECANPAY = 0 then prevout_hash tx else zeros32) ++
               ((if ht &&& SIGHASH_ANYONECANPAY = 0
                    ∧ ht &&& SIGHASH_MASK ≠ SIGHASH_SINGLE
                    ∧ ht &&& SIGHASH_MASK ≠ SIGHASH_NONE then
                   sequence_hash tx else zeros32) ++
                ((if ht &&& SIGHASH_MASK ≠ SIGHASH_SINGLE
                     ∧ ht &&& SIGHASH_MASK ≠ SIGHASH_NONE then
                    outputs_hash tx
                  else if ht &&& SIGHASH_MASK = SIGHASH_SINGLE then
                    (match tx.vout[n]? with
                     | some t_out =>
                       blake2b256 ZCASH_OUTPUTS_HASH_PERSONALIZATION t_out.write
                     | none => zeros32)
                  else zeros32) ++
                 ((if tx.joinsplits ≠ [] then joinsplits_hash tx else zeros32) ++
                  (le32 tx.lock_time ++
                   (le32 tx.expiry_height ++
                    (le32 ht ++
                     (t_in.prevout.write ++
                      (writeScript sc ++
                       (le64 (u64OfAmount amt) ++ le32 t_in.sequence)))))))))))))) := by
  refine ⟨by simp [ZCASH_SIGHASH_PERSONALIZATION, le32], ?_,
    sighash_none_eq tx b ht hov hvg, fun n sc amt t_in hvin =>
      sighash_some_eq tx b ht n sc amt t_in hov hvg hvin⟩
  intro ti d hok
  cases ti with
  | none =>
    rw [sighash_none_eq tx b ht hov hvg] at hok
    rw [← Except.ok.inj hok]
    exact blake2b256_length _ _
  | some p =>
    obtain ⟨n, sc, amt⟩ := p
    cases hvin : tx.vin[n]? with
    | none => rw [sighash_some_invalid_eq tx b ht n sc amt hov hvg hvin] at hok; cases hok
    | some t_in =>
      rw [sighash_some_eq tx b ht n sc amt t_in hov hvg hvin] at hok
      rw [← Except.ok.inj hok]
      exact blake2b256_length _ _

theorem claim_C1_witness :
    txW.overwintered = true
    ∧ txW.version_group_id = OVERWINTER_VERSION_GROUP_ID
    ∧ ((ZCASH_SIGHASH_PERSONALIZATION ++ le32 42).length = 16
    ∧ (∀ ti d, signature_hash txW 42 1 ti = .ok d → d.length = 32)
    ∧ signature_hash txW 42 1 none =
        .ok (blake2b256 (ZCASH_SIGHASH_PERSONALIZATION ++ le32 42)
          (le32 txW.header ++
           (le32 txW.version_group_id ++
            ((if 1 &&& SIGHASH_ANYONECANPAY = 0 then prevout_hash txW else zeros32) ++
             ((if 1 &&& SIGHASH_ANYONECANPAY = 0
                  ∧ 1 &&& SIGHASH_MASK ≠ SIGHASH_SINGLE
                  ∧ 1 &&& SIGHASH_MASK ≠ SIGHASH_NONE then
                 sequence_hash txW else zeros32) ++
              ((if 1 &&& SIGHASH_MASK ≠ SIGHASH_SINGLE
                   ∧ 1 &&& SIGHASH_MASK ≠ SIGHASH_NONE then
                  outputs_hash txW else zeros32) ++
               ((if txW.joinsplits ≠ [] then joinsplits_hash txW else zeros32) ++
                (le32 txW.lock_time ++ (le32 txW.expiry_height ++ le32 1)))))))))
    ∧ (∀ n sc amt t_in, txW.vin[n]? = some t_in →
        signature_hash txW 42 1 (some (n, sc, amt)) =
          .ok (blake2b256 (ZCASH_SIGHASH_PERSONALIZATION ++ le32 42)
            (le32 txW.header ++
             (le32 txW.version_group_id ++
              ((if 1 &&& SIGHASH_ANYONECANPAY = 0 then prevout_hash txW else zeros32) ++
               ((if 1 &&& SIGHASH_ANYONECANPAY = 0
                    ∧ 1 &&& SIGHASH_MASK ≠ SIGHASH_SINGLE
                    ∧ 1 &&& SIGHASH_MASK ≠ SIGHASH_NONE then
                   sequence_hash txW else zeros32) ++
                ((if 1 &&& SIGHASH_MASK ≠ SIGHASH_SINGLE
                     ∧ 1 &&& SIGHASH_MASK ≠ SIGHASH_NONE then
                    outputs_hash txW
                  else if 1 &&& SIGHASH_MASK = SIGHASH_SINGLE then
                    (match txW.vout[n]? with
                     | some t_out =>
                       blake2b256 ZCASH_OUTPUTS_HASH_PERSONALIZATION t_out.write
                     | none => zeros32)
                  else zeros32) ++
                 ((if txW.joinsplits ≠ [] then joinsplits_hash txW else zeros32) ++
                  (le32 txW.lock_time ++
                   (le32 txW.expiry_height ++
                    (le32 1 ++
                     (t_in.prevout.write ++
                      (writeScript sc ++
                       (le64 (u64OfAmount amt) ++ le32 t_in.sequence))))))))))))))) :=
  ⟨rfl, rfl, claim_C1 txW 42 1 rfl rfl⟩

/-- C3: on every returning supported call, the prevouts slot holds the real
prevouts hash exactly when ANYONECANPAY (bit 0x80) is clear and 32 zero bytes
otherwise, and the sequence slot holds the real sequence hash exactly when
ANYONECANPAY is clear and the masked base type is neither NONE nor SINGLE and
32 zero bytes otherwise; ANYONECANPAY zeroes both slots regardless of the
masked base type. -/
theorem claim_C3 (tx : Transaction) (b ht : Nat)
    (ti : Option (Nat × List Nat × Int)) (d : List Nat)
    (hov : tx.overwintered = true)
    (hvg : tx.version_group_id = OVERWINTER_VERSION_GROUP_ID)
    (hok : signature_hash tx b ht ti = .ok d) :
    (ht &&& SIGHASH_ANYONECANPAY ≠ 0 →
      CommitsPrevoutSequence tx b zeros32 zeros32 d)
    ∧ (ht &&& SIGHASH_ANYONECANPAY = 0
        ∧ ht &&& SIGHASH_MASK ≠ SIGHASH_NONE
        ∧ ht &&& SIGHASH_MASK ≠ SIGHASH_SINGLE →
      CommitsPrevoutSequence tx b (prevout_hash tx) (sequence_hash tx) d)
    ∧ (ht &&& SIGHASH_ANYONECANPAY = 0
        ∧ (ht &&& SIGHASH_MASK = SIGHASH_NONE ∨ ht &&& SIGHASH_MASK = SIGHASH_SINGLE) →
      CommitsPrevoutSequence tx b (prevout_hash tx) zeros32 d) := by
  have key := sighash_ok_slots tx b ht ti d hov hvg hok
  refine ⟨fun h => ?_, fun h => ?_, fun h => ?_⟩
  · rwa [if_neg h, if_neg (fun hc => h hc.1)] at key
  · rwa [if_pos h.1, if_pos ⟨h.1, h.2.2, h.2.1⟩] at key
  · have h2 : (if ht &&& SIGHASH_ANYONECANPAY = 0
        ∧ ht &&& SIGHASH_MASK ≠ SIGHASH_SINGLE
        ∧ ht &&& SIGHASH_MASK ≠ SIGHASH_NONE then
          sequence_hash tx else zeros32) = zeros32 := by
      rcases h.2 with h2 | h2
      · exact if_neg (fun hc => hc.2.2 h2)
      · exact if_neg (fun hc => hc.2.1 h2)
    rwa [if_pos h.1, h2] at key

set_option maxRecDepth 40000 in
theorem claim_C3_witness :
    txW.overwintered = true
    ∧ txW.version_group_id = OVERWINTER_VERSION_GROUP_ID
    ∧ signature_hash txW 42 129 none =
        .ok [148, 196, 44, 161, 79, 153, 207, 24, 110, 52, 28, 157, 130, 125, 138, 230,
             25, 85, 126, 125, 197, 181, 245, 58, 20, 113, 180, 51, 2, 254, 12, 113]
    ∧ ((129 &&& SIGHASH_ANYONECANPAY ≠ 0 →
        CommitsPrevoutSequence txW 42 zeros32 zeros32
          [148, 196, 44, 161, 79, 153, 207, 24, 110, 52, 28, 157, 130, 125, 138, 230,
           25, 85, 126, 125, 197, 181, 245, 58, 20, 113, 180, 51, 2, 254, 12, 113])
      ∧ (129 &&& SIGHASH_ANYONECANPAY = 0
          ∧ 129 &&& SIGHASH_MASK ≠ SIGHASH_NONE
          ∧ 129 &&& SIGHASH_MASK ≠ SIGHASH_SINGLE →
        CommitsPrevoutSequence txW 42 (prevout_hash txW) (sequence_hash txW)
          [148, 196, 44, 161, 79, 153, 207, 24, 110, 52, 28, 157, 130, 125, 138, 230,
           25, 85, 126, 125, 197, 181, 245, 58, 20, 113, 180, 51, 2, 254, 12, 113])
      ∧ (129 &&& SIGHASH_ANYONECANPAY = 0
          ∧ (129 &&& SIGHASH_MASK = SIGHASH_NONE ∨ 129 &&& SIGHASH_MASK = SIGHASH_SINGLE) →
        CommitsPrevoutSequence txW 42 (prevout_hash txW) zeros32
          [148, 196, 44, 161, 79, 153, 207, 24, 110, 52, 28, 157, 130, 125, 138, 230,
           25, 85, 126, 125, 197, 181, 245, 58, 20, 113, 180, 51, 2, 254, 12, 113])) :=
  ⟨rfl, rfl, by rfl, claim_C3 txW 42 129 none _ rfl rfl (by rfl)⟩

/-- C4: on every returning supported call, the outputs slot holds the
full-outputs hash when the masked type is neither SINGLE nor NONE; the digest
of the single output at the signing input's index (personalization
`"ZcashOutputsHash"`) when the masked type is SINGLE, a signing input is
present and its index is a valid output index; and 32 zero bytes in every
other case — in particular always 32 zero bytes under NONE. -/
theorem claim_C4 (tx : Transaction) (b ht : Nat)
    (ti : Option (Nat × List Nat × Int)) (d : List Nat)
    (hov : tx.overwintered = true)
    (hvg : tx.version_group_id = OVERWINTER_VERSION_GROUP_ID)
    (hok : signature_hash tx b ht ti = .ok d) :
    (ht &&& SIGHASH_MASK ≠ SIGHASH_SINGLE ∧ ht &&& SIGHASH_MASK ≠ SIGHASH_NONE →
      CommitsOutputsSlot tx b (outputs_hash tx) d)
    ∧ (∀ n sc amt, ti = some (n, sc, amt) → ht &&& SIGHASH_MASK = SIGHASH_SINGLE →
        (∀ t_out, tx.vout[n]? = some t_out →
          CommitsOutputsSlot tx b
            (blake2b256 ZCASH_OUTPUTS_HASH_PERSONALIZATION t_out.write) d)
        ∧ (tx.vout[n]? = none → CommitsOutputsSlot tx b zeros32 d))
    ∧ (ti = none → ht &&& SIGHASH_MASK = SIGHASH_SINGLE →
      CommitsOutputsSlot tx b zeros32 d)
    ∧ (ht &&& SIGHASH_MASK = SIGHASH_NONE → CommitsOutputsSlot tx b zeros32 d) := by
  cases ti with
  | none =>
    rw [sighash_none_eq tx b ht hov hvg] at hok
    have hd := (Except.ok.inj hok).symm
    refine ⟨fun h => ?_, fun n sc amt hti => Option.noConfusion hti,
      fun _ h => ?_, fun h => ?_⟩
    · have ho : (if ht &&& SIGHASH_MASK ≠ SIGHASH_SINGLE
          ∧ ht &&& SIGHASH_MASK ≠ SIGHASH_NONE then
            outputs_hash tx else zeros32) = outputs_hash tx := if_pos h
      rw [ho] at hd
      exact ⟨_, _, _, seg_length _ _ (prevout_hash_length tx),
        seg_length _ _ (sequence_hash_length tx), hd⟩
    · have ho : (if ht &&& SIGHASH_MASK ≠ SIGHASH_SINGLE
          ∧ ht &&& SIGHASH_MASK ≠ SIGHASH_NONE then
            outputs_hash tx else zeros32) = zeros32 := if_neg (fun hc => hc.1 h)
      rw [ho] at hd
      exact ⟨_, _, _, seg_length _ _ (prevout_hash_length tx),
        seg_length _ _ (sequence_hash_length tx), hd⟩
    · have ho : (if ht &&& SIGHASH_MASK ≠ SIGHASH_SINGLE
          ∧ ht &&& SIGHASH_MASK ≠ SIGHASH_NONE then
            outputs_hash tx else zeros32) = zeros32 := if_neg (fun hc => hc.2 h)
      rw [ho] at hd
      exact ⟨_, _, _, seg_length _ _ (prevout_hash_length tx),
        seg_length _ _ (sequence_hash_length tx), hd⟩
  | some p =>
    obtain ⟨n0, sc0, amt0⟩ := p
    cases hvin : tx.vin[n0]? with
    | none => rw [sighash_some_invalid_eq tx b ht n0 sc0 amt0 hov hvg hvin] at hok; cases hok
    | some t_in =>
      rw [sighash_some_eq tx b ht n0 sc0 amt0 t_in hov hvg hvin] at hok
      have hd := (Except.ok.inj hok).symm
      refine ⟨fun h => ?_, fun n sc amt hti hsingle => ?_,
        fun hti => Option.noConfusion hti, fun h => ?_⟩
      · have ho : (if ht &&& SIGHASH_MASK ≠ SIGHASH_SINGLE
            ∧ ht &&& SIGHASH_MASK ≠ SIGHASH_NONE then
              outputs_hash tx
            else if ht &&& SIGHASH_MASK = SIGHASH_SINGLE then
              (match tx.vout[n0]? with
               | some t_out => blake2b256 ZCASH_OUTPUTS_HASH_PERSONALIZATION t_out.write
               | none => zeros32)
            else zeros32) = outputs_hash tx := if_pos h
        rw [ho] at hd
        exact ⟨_, _, _, seg_length _ _ (prevout_hash_length tx),
          seg_length _ _ (sequence_hash_length tx), hd⟩
      · obtain ⟨rfl, rfl, rfl⟩ : n0 = n ∧ sc0 = sc ∧ amt0 = amt := by simpa using hti
        refine ⟨fun t_out hvout => ?_, fun hvout => ?_⟩
        · have ho : (if ht &&& SIGHASH_MASK ≠ SIGHASH_SINGLE
              ∧ ht &&& SIGHASH_MASK ≠ SIGHASH_NONE then
                outputs_hash tx
              else if ht &&& SIGHASH_MASK = SIGHASH_SINGLE then
                (match tx.vout[n0]? with
                 | some t_out => blake2b256 ZCASH_OUTPUTS_HASH_PERSONALIZATION t_out.write
                 | none => zeros32)
              else zeros32)
              = blake2b256 ZCASH_OUTPUTS_HASH_PERSONALIZATION t_out.write := by
            rw [if_neg (fun hc => hc.1 hsingle), if_pos hsingle, hvout]
          rw [ho] at hd
          exact ⟨_, _, _, seg_length _ _ (prevout_hash_length tx),
            seg_length _ _ (sequence_hash_length tx), hd⟩
        · have ho : (if ht &&& SIGHASH_MASK ≠ SIGHASH_SINGLE
              ∧ ht &&& SIGHASH_MASK ≠ SIGHASH_NONE then
                outputs_hash tx
              else if ht &&& SIGHASH_MASK = SIGHASH_SINGLE then
                (match tx.vout[n0]? with
                 | some t_out => blake2b256 ZCASH_OUTPUTS_HASH_PERSONALIZATION t_out.write
                 | none => zeros32)
              else zeros32) = zeros32 := by
            rw [if_neg (fun hc => hc.1 hsingle), if_pos hsingle, hvout]
          rw [ho] at hd
          exact ⟨_, _, _, seg_length _ _ (prevout_hash_length tx),
            seg_length _ _ (sequence_hash_length tx), hd⟩
      · have hne : ¬(ht &&& SIGHASH_MASK = SIGHASH_SINGLE) := by rw [h]; decide
        have ho : (if ht &&& SIGHASH_MASK ≠ SIGHASH_SINGLE
            ∧ ht &&& SIGHASH_MASK ≠ SIGHASH_NONE then
              outputs_hash tx
            else if ht &&& SIGHASH_MASK = SIGHASH_SINGLE then
              (match tx.vout[n0]? with
               | some t_out => blake2b256 ZCASH_OUTPUTS_HASH_PERSONALIZATION t_out.write
               | none => zeros32)
            else zeros32) = zeros32 := by
          rw [if_neg (fun hc => hc.2 h), if_neg hne]
        rw [ho] at hd
        exact ⟨_, _, _, seg_length _ _ (prevout_hash_length tx),
          seg_length _ _ (sequence_hash_length tx), hd⟩

set_option maxRecDepth 40000 in
theorem claim_C4_witness :
    txW.overwintered = true
    ∧ txW.version_group_id = OVERWINTER_VERSION_GROUP_ID
    ∧ signature_hash txW 42 1 none =
        .ok [204, 215, 201, 180, 4, 133, 71, 210, 227, 81, 236, 233, 207, 34, 102, 191,
             160, 159, 46, 173, 66, 82, 95, 40, 8, 115, 145, 244, 87, 109, 186, 113]
    ∧ ((1 &&& SIGHASH_MASK ≠ SIGHASH_SINGLE ∧ 1 &&& SIGHASH_MASK ≠ SIGHASH_NONE →
        CommitsOutputsSlot txW 42 (outputs_hash txW)
          [204, 215, 201, 180, 4, 133, 71, 210, 227, 81, 236, 233, 207, 34, 102, 191,
           160, 159, 46, 173, 66, 82, 95, 40, 8, 115, 145, 244, 87, 109, 186, 113])
      ∧ (∀ n sc amt, (none : Option (Nat × List Nat × Int)) = some (n, sc, amt) →
          1 &&& SIGHASH_MASK = SIGHASH_SINGLE →
          (∀ t_out, txW.vout[n]? = some t_out →
            CommitsOutputsSlot txW 42
              (blake2b256 ZCASH_OUTPUTS_HASH_PERSONALIZATION t_out.write)
              [204, 215, 201, 180, 4, 133, 71, 210, 227, 81, 236, 233, 207, 34, 102, 191,
               160, 159, 46, 173, 66, 82, 95, 40, 8, 115, 145, 244, 87, 109, 186, 113])
          ∧ (txW.vout[n]? = none →
            CommitsOutputsSlot txW 42 zeros32
              [204, 215, 201, 180, 4, 133, 71, 210, 227, 81, 236, 233, 207, 34, 102, 191,
               160, 159, 46, 173, 66, 82, 95, 40, 8, 115, 145, 244, 87, 109, 186, 113]))
      ∧ ((none : Option (Nat × List Nat × Int)) = none →
          1 &&& SIGHASH_MASK = SIGHASH_SINGLE →
          CommitsOutputsSlot txW 42 zeros32
            [204, 215, 201, 180, 4, 133, 71, 210, 227, 81, 236, 233, 207, 34, 102, 191,
             160, 159, 46, 173, 66, 82, 95, 40, 8, 115, 145, 244, 87, 109, 186, 113])
      ∧ (1 &&& SIGHASH_MASK = SIGHASH_NONE →
          CommitsOutputsSlot txW 42 zeros32
            [204, 215, 201, 180, 4, 133, 71, 210, 227, 81, 236, 233, 207, 34, 102, 191,
             160, 159, 46, 173, 66, 82, 95, 40, 8, 115, 145, 244, 87, 109, 186, 113])) :=
  ⟨rfl, rfl, by rfl, claim_C4 txW 42 1 none _ rfl rfl (by rfl)⟩

/-- C5 counterexample: a supported transaction with no inputs and no outputs,
in SINGLE mode with a present signing input of index 0 (which is ≥ the number
of outputs), makes the call abort at the unguarded `tx.vin[0]` lookup instead
of returning a digest — the claim as stated omits the input-index bound. -/
theorem claim_C5_counterexample :
    txC5.overwintered = true
    ∧ txC5.version_group_id = OVERWINTER_VERSION_GROUP_ID
    ∧ 3 &&& SIGHASH_MASK = SIGHASH_SINGLE
    ∧ txC5.vout.length ≤ 0
    ∧ signature_hash txC5 42 3 (some (0, [], 0)) = .error .indexOutOfBounds :=
  ⟨rfl, rfl, by decide, by decide, by rfl⟩

/-- C5 (amended): for every supported transaction in SINGLE mode with a
present signing input whose index is at least the number of outputs but a
valid input index, the outputs contribution is 32 zero bytes and the call
still returns a complete digest. -/
theorem claim_C5 (tx : Transaction) (b ht n : Nat) (sc : List Nat) (amt : Int)
    (t_in : TxIn)
    (hov : tx.overwintered = true)
    (hvg : tx.version_group_id = OVERWINTER_VERSION_GROUP_ID)
    (hsingle : ht &&& SIGHASH_MASK = SIGHASH_SINGLE)
    (hout : tx.vout.length ≤ n)
    (hvin : tx.vin[n]? = some t_in) :
    ∃ d, signature_hash tx b ht (some (n, sc, amt)) = .ok d
      ∧ CommitsOutputsSlot tx b zeros32 d := by
  have hvout : tx.vout[n]? = none := List.getElem?_eq_none hout
  have heq := sighash_some_eq tx b ht n sc amt t_in hov hvg hvin
  have ho : (if ht &&& SIGHASH_MASK ≠ SIGHASH_SINGLE
      ∧ ht &&& SIGHASH_MASK ≠ SIGHASH_NONE then
        outputs_hash tx
      else if ht &&& SIGHASH_MASK = SIGHASH_SINGLE then
        (match tx.vout[n]? with
         | some t_out => blake2b256 ZCASH_OUTPUTS_HASH_PERSONALIZATION t_out.write
         | none => zeros32)
      else zeros32) = zeros32 := by
    rw [if_neg (fun hc => hc.1 hsingle), if_pos hsingle, hvout]
  rw [ho] at heq
  exact ⟨_, heq, _, _, _, seg_length _ _ (prevout_hash_length tx),
    seg_length _ _ (sequence_hash_length tx), rfl⟩

theorem claim_C5_witness :
    txB.overwintered = true
    ∧ txB.version_group_id = OVERWINTER_VERSION_GROUP_ID
    ∧ 3 &&& SIGHASH_MASK = SIGHASH_SINGLE
    ∧ txB.vout.length ≤ 1
    ∧ txB.vin[1]? = some inB2
    ∧ ∃ d, signature_hash txB 42 3 (some (1, [], 0)) = .ok d
        ∧ CommitsOutputsSlot txB 42 zeros32 d :=
  ⟨rfl, rfl, by decide, by decide, by rfl,
   claim_C5 txB 42 3 1 [] 0 inB2 rfl rfl (by decide) (by decide) (by rfl)⟩

/-- C6: on every returning supported call, the joinsplits slot is 32 zero
bytes when the joinsplits list is empty, and otherwise the Blake2b-256 digest,
personalized `"ZcashJSplitsHash"`, of all joinsplit serializations in list
order followed by the joinsplit public key bytes. -/
theorem claim_C6 (tx : Transaction) (b ht : Nat)
    (ti : Option (Nat × List Nat × Int)) (d : List Nat)
    (hov : tx.overwintered = true)
    (hvg : tx.version_group_id = OVERWINTER_VERSION_GROUP_ID)
    (hok : signature_hash tx b ht ti = .ok d) :
    (tx.joinsplits = [] → CommitsJoinsplitSlot tx b ht zeros32 d)
    ∧ (tx.joinsplits ≠ [] →
        CommitsJoinsplitSlot tx b ht
          (blake2b256 ZCASH_JOINSPLITS_HASH_PERSONALIZATION
            ((tx.joinsplits.map JSDescription.write).flatten ++ tx.joinsplit_pubkey))
          d) := by
  cases ti with
  | none =>
    rw [sighash_none_eq tx b ht hov hvg] at hok
    have hd := (Except.ok.inj hok).symm
    constructor
    · intro h
      have hJ : (if tx.joinsplits ≠ [] then joinsplits_hash tx else zeros32)
          = zeros32 := if_neg (fun hc => hc h)
      rw [hJ, show le32 ht = le32 ht ++ [] from (List.append_nil _).symm] at hd
      exact ⟨_, _, _, [], seg_length _ _ (prevout_hash_length tx),
        seg_length _ _ (sequence_hash_length tx),
        seg_length _ _ (outputs_hash_length tx), hd⟩
    · intro h
      have hJ : (if tx.joinsplits ≠ [] then joinsplits_hash tx else zeros32)
          = joinsplits_hash tx := if_pos h
      have hju : joinsplits_hash tx
          = blake2b256 ZCASH_JOINSPLITS_HASH_PERSONALIZATION
              ((tx.joinsplits.map JSDescription.write).flatten
                ++ tx.joinsplit_pubkey) := rfl
      rw [hJ, hju, show le32 ht = le32 ht ++ [] from (List.append_nil _).symm] at hd
      exact ⟨_, _, _, [], seg_length _ _ (prevout_hash_length tx),
        seg_length _ _ (sequence_hash_length tx),
        seg_length _ _ (outputs_hash_length tx), hd⟩
  | some p =>
    obtain ⟨n, sc, amt⟩ := p
    cases hvin : tx.vin[n]? with
    | none => rw [sighash_some_invalid_eq tx b ht n sc amt hov hvg hvin] at hok; cases hok
    | some t_in =>
      rw [sighash_some_eq tx b ht n sc amt t_in hov hvg hvin] at hok
      have hd := (Except.ok.inj hok).symm
      constructor
      · intro h
        have hJ : (if tx.joinsplits ≠ [] then joinsplits_hash tx else zeros32)
            = zeros32 := if_neg (fun hc => hc h)
        rw [hJ] at hd
        exact ⟨_, _, _, _, seg_length _ _ (prevout_hash_length tx),
          seg_length _ _ (sequence_hash_length tx),
          outputs_slot_length tx ht n, hd⟩
      · intro h
        have hJ : (if tx.joinsplits ≠ [] then joinsplits_hash tx else zeros32)
            = joinsplits_hash tx := if_pos h
        have hju : joinsplits_hash tx
            = blake2b256 ZCASH_JOINSPLITS_HASH_PERSONALIZATION
                ((tx.joinsplits.map JSDescription.write).flatten
                  ++ tx.joinsplit_pubkey) := rfl
        rw [hJ, hju] at hd
        exact ⟨_, _, _, _, seg_length _ _ (prevout_hash_length tx),
          seg_length _ _ (sequence_hash_length tx),
          outputs_slot_length tx ht n, hd⟩

set_option maxRecDepth 40000 in
theorem claim_C6_witness :
    txW.overwintered = true
    ∧ txW.version_group_id = OVERWINTER_VERSION_GROUP_ID
    ∧ signature_hash txW 42 1 none =
        .ok [204, 215, 201, 180, 4, 133, 71, 210, 227, 81, 236, 233, 207, 34, 102, 191,
             160, 159, 46, 173, 66, 82, 95, 40, 8, 115, 145, 244, 87, 109, 186, 113]
    ∧ ((txW.joinsplits = [] →
        CommitsJoinsplitSlot txW 42 1 zeros32
          [204, 215, 201, 180, 4, 133, 71, 210, 227, 81, 236, 233, 207, 34, 102, 191,
           160, 159, 46, 173, 66, 82, 95, 40, 8, 115, 145, 244, 87, 109, 186, 113])
      ∧ (txW.joinsplits ≠ [] →
        CommitsJoinsplitSlot txW 42 1
          (blake2b256 ZCASH_JOINSPLITS_HASH_PERSONALIZATION
            ((txW.joinsplits.map JSDescription.write).flatten ++ txW.joinsplit_pubkey))
          [204, 215, 201, 180, 4, 133, 71, 210, 227, 81, 236, 233, 207, 34, 102, 191,
           160, 159, 46, 173, 66, 82, 95, 40, 8, 115, 145, 244, 87, 109, 186, 113])) :=
  ⟨rfl, rfl, by rfl, claim_C6 txW 42 1 none _ rfl rfl (by rfl)⟩

/-- C7: for every supported call with a present signing input at a valid input
index `n`, the bytes appended after the 4-byte LE hash type are exactly the
36-byte serialization of input `n`'s outpoint, the length-prefixed script
code, the 8-byte LE amount, and the 4-byte LE sequence number taken from the
transaction's own input at index `n`. -/
theorem claim_C7 (tx : Transaction) (b ht n : Nat) (sc : List Nat) (amt : Int)
    (t_in : TxIn)
    (hov : tx.overwintered = true)
    (hvg : tx.version_group_id = OVERWINTER_VERSION_GROUP_ID)
    (hvin : tx.vin[n]? = some t_in)
    (hhash : t_in.prevout.hash.length = 32) :
    t_in.prevout.write.length = 36
    ∧ ∃ m, signature_hash tx b ht (some (n, sc, amt)) =
        .ok (blake2b256 (ZCASH_SIGHASH_PERSONALIZATION ++ le32 b)
          (m ++ (le32 ht ++ (t_in.prevout.write ++ (writeScript sc ++
            (le64 (u64OfAmount amt) ++ le32 t_in.sequence)))))) := by
  constructor
  · simp [OutPoint.write, le32, hhash]
  · refine ⟨le32 tx.header ++ (le32 tx.version_group_id ++
      ((if ht &&& SIGHASH_ANYONECANPAY = 0 then prevout_hash tx else zeros32) ++
       ((if ht &&& SIGHASH_ANYONECANPAY = 0
            ∧ ht &&& SIGHASH_MASK ≠ SIGHASH_SINGLE
            ∧ ht &&& SIGHASH_MASK ≠ SIGHASH_NONE then
           sequence_hash tx else zeros32) ++
        ((if ht &&& SIGHASH_MASK ≠ SIGHASH_SINGLE
             ∧ ht &&& SIGHASH_MASK ≠ SIGHASH_NONE then
            outputs_hash tx
          else if ht &&& SIGHASH_MASK = SIGHASH_SINGLE then
            (match tx.vout[n]? with
             | some t_out => blake2b256 ZCASH_OUTPUTS_HASH_PERSONALIZATION t_out.write
             | none => zeros32)
          else zeros32) ++
         ((if tx.joinsplits ≠ [] then joinsplits_hash tx else zeros32) ++
          (le32 tx.lock_time ++ le32 tx.expiry_height)))))), ?_⟩
    rw [sighash_some_eq tx b ht n sc amt t_in hov hvg hvin]
    simp [List.append_assoc]

theorem claim_C7_witness :
    txW.overwintered = true
    ∧ txW.version_group_id = OVERWINTER_VERSION_GROUP_ID
    ∧ txW.vin[0]? = some inW
    ∧ inW.prevout.hash.length = 32
    ∧ (inW.prevout.write.length = 36
      ∧ ∃ m, signature_hash txW 42 1 (some (0, [9], 5)) =
          .ok (blake2b256 (ZCASH_SIGHASH_PERSONALIZATION ++ le32 42)
            (m ++ (le32 1 ++ (inW.prevout.write ++ (writeScript [9] ++
              (le64 (u64OfAmount 5) ++ le32 inW.sequence))))))) :=
  ⟨rfl, rfl, by rfl, by decide,
   claim_C7 txW 42 1 0 [9] 5 inW rfl rfl (by rfl) (by decide)⟩

/-- C9: the sighash never depends on any input's script signature — two
transactions that agree on every field except the inputs' `script_sig` produce
identical results for every branch id, hash type and signing input. -/
theorem claim_C9 (tx tx2 : Transaction)
    (h1 : tx2.overwintered = tx.overwintered)
    (h2 : tx2.version = tx.version)
    (h3 : tx2.version_group_id = tx.version_group_id)
    (h4 : tx2.vout = tx.vout)
    (h5 : tx2.lock_time = tx.lock_time)
    (h6 : tx2.expiry_height = tx.expiry_height)
    (h7 : tx2.joinsplits = tx.joinsplits)
    (h8 : tx2.joinsplit_pubkey = tx.joinsplit_pubkey)
    (h9 : tx2.vin.map eraseScriptSig = tx.vin.map eraseScriptSig)
    (b ht : Nat) (ti : Option (Nat × List Nat × Int)) :
    signature_hash tx2 b ht ti = signature_hash tx b ht ti := by
  have hmap : ∀ (g : TxIn → List Nat), (∀ t, g (eraseScriptSig t) = g t) →
      tx2.vin.map g = tx.vin.map g := by
    intro g hg
    have hl : ∀ l : List TxIn, l.map g = (l.map eraseScriptSig).map g := by
      intro l
      rw [List.map_map]
      exact (List.map_congr_left (fun a _ => (hg a).symm))
    rw [hl tx2.vin, hl tx.vin, h9]
  have hprev : prevout_hash tx2 = prevout_hash tx := by
    unfold prevout_hash
    rw [hmap (fun t => t.prevout.write) (fun t => rfl)]
  have hseq : sequence_hash tx2 = sequence_hash tx := by
    unfold sequence_hash
    rw [hmap (fun t => le32 t.sequence) (fun t => rfl)]
  have hout : outputs_hash tx2 = outputs_hash tx := by
    unfold outputs_hash; rw [h4]
  have hjs : joinsplits_hash tx2 = joinsplits_hash tx := by
    unfold joinsplits_hash; rw [h7, h8]
  have hhd : tx2.header = tx.header := by
    unfold Transaction.header; rw [h1, h2]
  have hvq : ∀ n : Nat,
      tx2.vin[n]?.map eraseScriptSig = tx.vin[n]?.map eraseScriptSig := by
    intro n
    rw [← List.getElem?_map eraseScriptSig tx2.vin n,
      ← List.getElem?_map eraseScriptSig tx.vin n, h9]
  cases ti with
  | none =>
    simp only [signature_hash, SigHashVersion.from_tx, h1, h3, h4, h5, h6, h7, h8,
      hhd, hprev, hseq, hout, hjs]
  | some p =>
    obtain ⟨n, sc, amt⟩ := p
    have hv := hvq n
    cases e2 : tx2.vin[n]? with
    | none =>
      cases e1 : tx.vin[n]? with
      | none =>
        simp only [signature_hash, SigHashVersion.from_tx, h1, h3, h4, h5, h6, h7, h8,
          hhd, hprev, hseq, hout, hjs, e1, e2]
      | some t1 => rw [e1, e2] at hv; cases hv
    | some t2 =>
      cases e1 : tx.vin[n]? with
      | none => rw [e1, e2] at hv; cases hv
      | some t1 =>
        rw [e1, e2] at hv
        have he : eraseScriptSig t2 = eraseScriptSig t1 := by
          simpa using hv
        have hp : t2.prevout = t1.prevout := by
          have h' := congrArg TxIn.prevout he
          simpa [eraseScriptSig] using h'
        have hs : t2.sequence = t1.sequence := by
          have h' := congrArg TxIn.sequence he
          simpa [eraseScriptSig] using h'
        simp only [signature_hash, SigHashVersion.from_tx, h1, h3, h4, h5, h6, h7, h8,
          hhd, hprev, hseq, hout, hjs, e1, e2, hp, hs]

theorem claim_C9_witness :
    txW2.overwintered = txW.overwintered
    ∧ txW2.version = txW.version
    ∧ txW2.version_group_id = txW.version_group_id
    ∧ txW2.vout = txW.vout
    ∧ txW2.lock_time = txW.lock_time
    ∧ txW2.expiry_height = txW.expiry_height
    ∧ txW2.joinsplits = txW.joinsplits
    ∧ txW2.joinsplit_pubkey = txW.joinsplit_pubkey
    ∧ txW2.vin.map eraseScriptSig = txW.vin.map eraseScriptSig
    ∧ signature_hash txW2 42 1 none = signature_hash txW 42 1 none :=
  ⟨rfl, rfl, rfl, rfl, rfl, rfl, rfl, rfl, by rfl,
   claim_C9 txW txW2 rfl rfl rfl rfl rfl rfl rfl rfl (by rfl) 42 1 none⟩

end Sighash
